import Mathlib

/-!
# Verification of the job/bookmark state manager (JobContext)

Shallow embedding of the core state manager of the job-listing app:
the listing fetcher (`fetchJobs`), the bookmark store (`loadBookmarks`,
`saveBookmarks`, `toggleBookmark`, `clearBookmarks`,
`verifyAndRepairBookmarks`) and the membership query (`isBookmarked`).

JavaScript dynamic values are modelled by `JValue` (JSON values plus
`undef` for the result of reading a missing property).  React `useState`
setters are modelled as immediate updates of explicit state records.
`AsyncStorage` is modelled as a two-key store whose values are the
denotations of stored strings: either a string that parses to a `JValue`
or an unparseable (corrupt) string.  Storage I/O operations may fail;
failures are injected through an explicit fault schedule consumed one
entry per storage operation.
-/

/-- A JavaScript value as it occurs in this program: JSON data plus
`undef`, the value of a missing property.  Numbers are modelled as
integers (the program never manipulates fractional values).  Strict
equality `===` is modelled structurally; object identity is approximated
by structural equality, which agrees with `===` on all primitive values
(in particular a number and a string are never equal). -/
inductive JValue where
  | undefined
  | null
  | bool (b : Bool)
  | num (n : Int)
  | str (s : String)
  | arr (elems : List JValue)
  | obj (fields : List (String × JValue))

namespace JValue

mutual

/-- Boolean structural equality on `JValue`. -/
def beqJ : JValue → JValue → Bool
  | .undefined, .undefined => true
  | .null, .null => true
  | .bool a, .bool b => a == b
  | .num a, .num b => a == b
  | .str a, .str b => a == b
  | .arr a, .arr b => beqL a b
  | .obj a, .obj b => beqO a b
  | _, _ => false

/-- Boolean equality on lists of `JValue`. -/
def beqL : List JValue → List JValue → Bool
  | [], [] => true
  | x :: xs, y :: ys => beqJ x y && beqL xs ys
  | _, _ => false

/-- Boolean equality on object field lists. -/
def beqO : List (String × JValue) → List (String × JValue) → Bool
  | [], [] => true
  | (k, v) :: xs, (k', v') :: ys => k == k' && beqJ v v' && beqO xs ys
  | _, _ => false

end

mutual

theorem beqJ_refl : ∀ a : JValue, beqJ a a = true
  | .undefined => rfl
  | .null => rfl
  | .bool a => by simp [beqJ]
  | .num a => by simp [beqJ]
  | .str a => by simp [beqJ]
  | .arr a => by simpa [beqJ] using beqL_refl a
  | .obj a => by simpa [beqJ] using beqO_refl a

theorem beqL_refl : ∀ l : List JValue, beqL l l = true
  | [] => rfl
  | x :: xs => by simp [beqL, beqJ_refl x, beqL_refl xs]

theorem beqO_refl : ∀ l : List (String × JValue), beqO l l = true
  | [] => rfl
  | (k, v) :: xs => by simp [beqO, beqJ_refl v, beqO_refl xs]

end

mutual

theorem eq_of_beqJ : ∀ a b : JValue, beqJ a b = true → a = b
  | .undefined, .undefined, _ => rfl
  | .null, .null, _ => rfl
  | .bool a, .bool b, h => by simpa [beqJ] using h
  | .num a, .num b, h => by simpa [beqJ] using h
  | .str a, .str b, h => by simpa [beqJ] using h
  | .arr a, .arr b, h => by
      have := eq_of_beqL a b (by simpa [beqJ] using h)
      rw [this]
  | .obj a, .obj b, h => by
      have := eq_of_beqO a b (by simpa [beqJ] using h)
      rw [this]
  | .undefined, .null, h => by simp [beqJ] at h
  | .undefined, .bool _, h => by simp [beqJ] at h
  | .undefined, .num _, h => by simp [beqJ] at h
  | .undefined, .str _, h => by simp [beqJ] at h
  | .undefined, .arr _, h => by simp [beqJ] at h
  | .undefined, .obj _, h => by simp [beqJ] at h
  | .null, .undefined, h => by simp [beqJ] at h
  | .null, .bool _, h => by simp [beqJ] at h
  | .null, .num _, h => by simp [beqJ] at h
  | .null, .str _, h => by simp [beqJ] at h
  | .null, .arr _, h => by simp [beqJ] at h
  | .null, .obj _, h => by simp [beqJ] at h
  | .bool _, .undefined, h => by simp [beqJ] at h
  | .bool _, .null, h => by simp [beqJ] at h
  | .bool _, .num _, h => by simp [beqJ] at h
  | .bool _, .str _, h => by simp [beqJ] at h
  | .bool _, .arr _, h => by simp [beqJ] at h
  | .bool _, .obj _, h => by simp [beqJ] at h
  | .num _, .undefined, h => by simp [beqJ] at h
  | .num _, .null, h => by simp [beqJ] at h
  | .num _, .bool _, h => by simp [beqJ] at h
  | .num _, .str _, h => by simp [beqJ] at h
  | .num _, .arr _, h => by simp [beqJ] at h
  | .num _, .obj _, h => by simp [beqJ] at h
  | .str _, .undefined, h => by simp [beqJ] at h
  | .str _, .null, h => by simp [beqJ] at h
  | .str _, .bool _, h => by simp [beqJ] at h
  | .str _, .num _, h => by simp [beqJ] at h
  | .str _, .arr _, h => by simp [beqJ] at h
  | .str _, .obj _, h => by simp [beqJ] at h
  | .arr _, .undefined, h => by simp [beqJ] at h
  | .arr _, .null, h => by simp [beqJ] at h
  | .arr _, .bool _, h => by simp [beqJ] at h
  | .arr _, .num _, h => by simp [beqJ] at h
  | .arr _, .str _, h => by simp [beqJ] at h
  | .arr _, .obj _, h => by simp [beqJ] at h
  | .obj _, .undefined, h => by simp [beqJ] at h
  | .obj _, .null, h => by simp [beqJ] at h
  | .obj _, .bool _, h => by simp [beqJ] at h
  | .obj _, .num _, h => by simp [beqJ] at h
  | .obj _, .str _, h => by simp [beqJ] at h
  | .obj _, .arr _, h => by simp [beqJ] at h

theorem eq_of_beqL : ∀ a b : List JValue, beqL a b = true → a = b
  | [], [], _ => rfl
  | x :: xs, y :: ys, h => by
      have h1 : beqJ x y = true := by
        have := h; simp [beqL] at this; exact this.1
      have h2 : beqL xs ys = true := by
        have := h; simp [beqL] at this; exact this.2
      rw [eq_of_beqJ x y h1, eq_of_beqL xs ys h2]
  | [], _ :: _, h => by simp [beqL] at h
  | _ :: _, [], h => by simp [beqL] at h

theorem eq_of_beqO : ∀ a b : List (String × JValue), beqO a b = true → a = b
  | [], [], _ => rfl
  | (k, v) :: xs, (k', v') :: ys, h => by
      have h0 : k = k' := by
        have := h; simp [beqO] at this; exact this.1.1
      have h1 : beqJ v v' = true := by
        have := h; simp [beqO] at this; exact this.1.2
      have h2 : beqO xs ys = true := by
        have := h; simp [beqO] at this; exact this.2
      rw [h0, eq_of_beqJ v v' h1, eq_of_beqO xs ys h2]
  | [], _ :: _, h => by simp [beqO] at h
  | _ :: _, [], h => by simp [beqO] at h

end

instance : DecidableEq JValue := fun a b =>
  if h : beqJ a b = true then .isTrue (eq_of_beqJ a b h)
  else .isFalse (fun he => h (he ▸ beqJ_refl a))

/-- JavaScript truthiness: `undefined`, `null`, `false`, `0` and `""` are
falsy; every other value (including every object and array) is truthy. -/
def truthy : JValue → Bool
  | .undefined => false
  | .null => false
  | .bool b => b
  | .num n => n != 0
  | .str s => s ≠ ""
  | .arr _ => true
  | .obj _ => true

/-- Property read `v.k`: the first binding of `k` in an object, `undef`
for a missing key or a non-object receiver. -/
def getField (v : JValue) (k : String) : JValue :=
  match v with
  | .obj fields =>
      match fields.find? (fun p => p.1 == k) with
      | some p => p.2
      | none => .undefined
  | _ => .undefined

/-- Whether an object value carries the key `k` (used for the
spec-literal reading of "the field exists"). -/
def hasField (v : JValue) (k : String) : Bool :=
  match v with
  | .obj fields => fields.any (fun p => p.1 == k)
  | _ => false

/-- JavaScript `a || b`: `a` when truthy, else `b`. -/
def jsOr (a b : JValue) : JValue := if truthy a then a else b

/-- `typeof v === 'number'`. -/
def isNum : JValue → Bool
  | .num _ => true
  | _ => false

/-- `Array.isArray v`. -/
def isArr : JValue → Bool
  | .arr _ => true
  | _ => false

/-- `v !== null && typeof v === 'object'` (arrays included, as in JS). -/
def isObjTypeof : JValue → Bool
  | .obj _ => true
  | .arr _ => true
  | _ => false

/-- Strict equality `a === b`.  Structural on primitives (exact JS
behaviour there); object/array identity is approximated structurally. -/
def jsStrictEq (a b : JValue) : Bool := beqJ a b

theorem jsStrictEq_iff_eq (a b : JValue) : jsStrictEq a b = true ↔ a = b :=
  ⟨eq_of_beqJ a b, fun h => h ▸ beqJ_refl a⟩

end JValue

open JValue

/-! ## Listing Fetcher (`fetchJobs`)

`fetchJobs(page)` performs one HTTP GET.  The transport-level outcome is
abstracted by `FetchResponse`: `fail` covers a network error, a non-ok
HTTP status (the code throws on `!response.ok`) and a JSON parse
failure of the body — all three are caught by the same `catch` block —
and `success body` is a body that parsed to the value `body`. -/

/-- Outcome of the network request + body parse made by `fetchJobs`. -/
inductive FetchResponse where
  | fail
  | success (body : JValue)
  deriving DecidableEq

/-- The listing slice of the provider state: `jobs`, `loading`, `error`,
`currentPage`. -/
structure ListingState where
  jobs : JValue
  loading : Bool
  error : Option String
  currentPage : Int
  deriving DecidableEq

/-- The envelope fallback chain of `fetchJobs`: an array body is used
directly; an object body yields `body.results || body.jobs || body.data
|| []`; any other body yields `[]`. -/
def extractJobs (body : JValue) : JValue :=
  if isArr body then body
  else if truthy body && isObjTypeof body then
    jsOr (getField body "results")
      (jsOr (getField body "jobs") (jsOr (getField body "data") (.arr [])))
  else .arr []

/-- Elements contributed by spreading a value with `...v`.  Arrays and
strings are the iterable `JValue`s; spreading anything else raises a
`TypeError`, modelled as `none`. -/
def spreadElems : JValue → Option (List JValue)
  | .arr l => some l
  | .str s => some (s.toList.map (fun c => .str (String.mk [c])))
  | _ => none

/-- `fetchJobs(page)` on a `ListingState`, given the response outcome.
Mirrors the source: set `loading := true` and `error := null`, then on
success extract the jobs array, replace (`page === 1`) or append
(otherwise) the `jobs` value and set `currentPage := page`; on failure
set the error message and leave `jobs`/`currentPage` alone; `finally`
clear `loading`.  An append whose operands are not both spreadable is a
`TypeError` inside the queued React updater: the `jobs` update is
discarded while the rest of the call has already completed. -/
def fetchJobs (resp : FetchResponse) (page : Int) (s : ListingState) : ListingState :=
  match resp with
  | .fail =>
      { s with error := some "Failed to fetch jobs. Please try again later.",
               loading := false }
  | .success body =>
      let jobsArray := extractJobs body
      let newJobs :=
        if page == 1 then jobsArray
        else
          match spreadElems s.jobs, spreadElems jobsArray with
          | some prev, some new => .arr (prev ++ new)
          | _, _ => s.jobs
      { jobs := newJobs, error := none, currentPage := page, loading := false }

/-! ## Durable storage model

`AsyncStorage` holds strings under two keys, `jobBookmarks` (primary)
and `jobBookmarks_backup` (backup).  A stored string is modelled by its
parse denotation: `parseable v` when `JSON.parse` yields `v`, `corrupt`
when it throws.  A missing key reads as `null` (`Option.none`). -/

/-- Denotation of a string stored in `AsyncStorage`. -/
inductive StoredVal where
  | parseable (v : JValue)
  | corrupt
  deriving DecidableEq

/-- The two `AsyncStorage` keys used by the bookmark store. -/
structure Storage where
  primary : Option StoredVal
  backup : Option StoredVal
  deriving DecidableEq

/-- The bookmark slice of the provider state. -/
structure BookmarkState where
  bookmarks : JValue
  error : Option String
  loading : Bool
  deriving DecidableEq

/-! ## Persist (`saveBookmarks`) -/

/-- The projection of one Job Record to its essential subset, exactly as
built by the object literal inside `saveBookmarks`, including the
numeric-field resolution against `primary_details` and the
`processedSalary || job.salary` fallback. -/
def essentialJob (job : JValue) : JValue :=
  let pd := getField job "primary_details"
  let processedExperience :=
    if isNum (getField job "experience") && truthy pd && truthy (getField pd "Experience")
    then getField pd "Experience" else getField job "experience"
  let processedJobType :=
    if isNum (getField job "job_type") && truthy pd && truthy (getField pd "Job_Type")
    then getField pd "Job_Type" else getField job "job_type"
  let processedQualification :=
    if isNum (getField job "qualification") && truthy pd && truthy (getField pd "Qualification")
    then getField pd "Qualification" else getField job "qualification"
  let processedSalary :=
    if truthy pd && truthy (getField pd "Salary") then getField pd "Salary" else JValue.null
  .obj
    [("id", getField job "id"),
     ("title", getField job "title"),
     ("company_name", getField job "company_name"),
     ("salary", jsOr processedSalary (getField job "salary")),
     ("salary_min", getField job "salary_min"),
     ("salary_max", getField job "salary_max"),
     ("experience", processedExperience),
     ("locality", getField job "locality"),
     ("city_location", getField job "city_location"),
     ("job_type", processedJobType),
     ("qualification", processedQualification),
     ("primary_details", pd),
     ("contentV3", getField job "contentV3"),
     ("other_details", getField job "other_details"),
     ("whatsapp_no", getField job "whatsapp_no"),
     ("phone", getField job "phone"),
     ("job_tags", getField job "job_tags"),
     ("openings_count", getField job "openings_count"),
     ("tags", getField job "tags"),
     ("created_on", getField job "created_on"),
     ("updated_on", getField job "updated_on"),
     ("expire_on", getField job "expire_on"),
     ("views", getField job "views")]

/-- The whitelisted essential field set of the persisted projection. -/
def essentialKeys : List String :=
  ["id", "title", "company_name", "salary", "salary_min", "salary_max",
   "experience", "locality", "city_location", "job_type", "qualification",
   "primary_details", "contentV3", "other_details", "whatsapp_no", "phone",
   "job_tags", "openings_count", "tags", "created_on", "updated_on",
   "expire_on", "views"]

/-- The bundle `{timestamp, jobs}` serialized by `saveBookmarks`. -/
def saveBundle (bookmarks : List JValue) (timestamp : String) : JValue :=
  .obj [("timestamp", .str timestamp),
        ("jobs", .arr (bookmarks.map essentialJob))]

/-- `saveBookmarks(updatedBookmarks)`: project every record, wrap with a
timestamp, write the serialized bundle to the primary and the backup
key.  The input is typed as a list, so the `Array.isArray` validation
guard holds by construction; storage writes are modelled as
succeeding (the failure branch only sets an error and an alert). -/
def saveBookmarks (bookmarks : List JValue) (timestamp : String) (st : Storage) : Storage :=
  { st with
      primary := some (.parseable (saveBundle bookmarks timestamp)),
      backup := some (.parseable (saveBundle bookmarks timestamp)) }

/-! ## Initial Load (`loadBookmarks`)

The source recurses with `retryCount + 1` and repairs only when
`retryCount === 0`, so the recursion depth is capped at 1; the
embedding unrolls it into the first attempt (`loadBookmarks`) and the
single retry (`loadBookmarksRetry`).  `AsyncStorage.getItem` /
`removeItem` may themselves reject; rejections are injected by a fault
schedule (`List Bool`, one entry consumed per storage operation, empty
schedule means no faults).  Each run also returns the list of storage
operations it attempted, in order. -/

/-- A storage operation attempted by `loadBookmarks`. -/
inductive StOp where
  | getPrimary
  | removePrimary
  deriving DecidableEq

/-- Pop the next injected fault (`false` when the schedule is empty). -/
def popFault : List Bool → Bool × List Bool
  | [] => (false, [])
  | b :: r => (b, r)

/-- The retry attempt (`retryCount = 1`): on any failure it no longer
repairs, it just sets the error.  `loading` is cleared by `finally`. -/
def loadBookmarksRetry (s : BookmarkState) (st : Storage) (faults : List Bool) :
    BookmarkState × Storage × List Bool × List StOp :=
  let (f, faults) := popFault faults
  if f then
    ({ s with error := some "Failed to load saved jobs", loading := false },
     st, faults, [.getPrimary])
  else
    match st.primary with
    | none =>
        ({ s with loading := false }, st, faults, [.getPrimary])
    | some (.parseable v) =>
        ({ s with bookmarks := v, loading := false }, st, faults, [.getPrimary])
    | some .corrupt =>
        ({ s with error := some "Failed to load saved jobs", loading := false },
         st, faults, [.getPrimary])

/-- `loadBookmarks()` (first attempt, `retryCount = 0`): read the
primary key; if present, `setBookmarks(JSON.parse(stored))`; on a read
or parse failure, remove the primary key and retry exactly once; if the
removal itself fails, set the error without retrying.  `finally` clears
`loading` on every path. -/
def loadBookmarks (s : BookmarkState) (st : Storage) (faults : List Bool) :
    BookmarkState × Storage × List Bool × List StOp :=
  let (f, faults) := popFault faults
  if f then
    let (f2, faults) := popFault faults
    if f2 then
      ({ s with error := some "Failed to load saved jobs", loading := false },
       st, faults, [.getPrimary, .removePrimary])
    else
      let r := loadBookmarksRetry s { st with primary := none } faults
      ({ r.1 with loading := false }, r.2.1, r.2.2.1,
       .getPrimary :: .removePrimary :: r.2.2.2)
  else
    match st.primary with
    | none =>
        ({ s with loading := false }, st, faults, [.getPrimary])
    | some (.parseable v) =>
        ({ s with bookmarks := v, loading := false }, st, faults, [.getPrimary])
    | some .corrupt =>
        let (f2, faults) := popFault faults
        if f2 then
          ({ s with error := some "Failed to load saved jobs", loading := false },
           st, faults, [.getPrimary, .removePrimary])
        else
          let r := loadBookmarksRetry s { st with primary := none } faults
          ({ r.1 with loading := false }, r.2.1, r.2.2.1,
           .getPrimary :: .removePrimary :: r.2.2.2)

/-! ## Membership, Toggle, Clear, Verify & Repair -/

/-- `isBookmarked(jobId)`: `bookmarks.some(job => job.id === jobId)`. -/
def isBookmarked (bookmarks : List JValue) (jobId : JValue) : Bool :=
  bookmarks.any (fun job => jsStrictEq (getField job "id") jobId)

/-- `toggleBookmark(job)` on the in-memory set: remove every record
whose `id` is strictly equal to `job.id` when the id is bookmarked,
append `job` otherwise.  (The persistence write-through and the haptic
side channel are outside the membership state.) -/
def toggleBookmark (bookmarks : List JValue) (job : JValue) : List JValue :=
  if isBookmarked bookmarks (getField job "id") then
    bookmarks.filter (fun bookmark => !(jsStrictEq (getField bookmark "id") (getField job "id")))
  else
    bookmarks ++ [job]

/-- `clearBookmarks()`: the confirmation dialog outcome is the Boolean
argument.  On confirmation, remove the primary key and reset the set;
otherwise do nothing.  The storage removal is modelled as succeeding
(its failure branch only sets an error). -/
def clearBookmarks (confirmed : Bool) (s : BookmarkState) (st : Storage) :
    BookmarkState × Storage :=
  if confirmed then
    ({ s with bookmarks := .arr [] }, { st with primary := none })
  else (s, st)

/-- `verifyAndRepairBookmarks()`: read both keys; if the primary is
missing and the backup is not, copy backup → primary and return the
parsed backup; otherwise return the parsed primary, or `[]` when the
primary is absent too; any parse failure is caught and yields `[]`. -/
def verifyAndRepairBookmarks (st : Storage) : Storage × JValue :=
  match st.primary, st.backup with
  | none, some bv =>
      match bv with
      | .parseable v => ({ st with primary := some bv }, v)
      | .corrupt => ({ st with primary := some bv }, .arr [])
  | some (.parseable v), _ => (st, v)
  | some .corrupt, _ => (st, .arr [])
  | none, none => (st, .arr [])

/-! ## Spec-literal resolution rules (for comparison with the source)

The spec states the projection's resolution rule in terms of the
`primary_details` field EXISTING; the source tests its truthiness.  The
following definitions follow the spec's words and are compared with
`essentialJob` above. -/

/-- Spec's words: "if the top-level field's value is numeric AND a
same-named field exists in `primary_details` (capitalized key), use the
`primary_details` value; otherwise use the top-level value as-is". -/
def resolveTriadSpec (job : JValue) (topKey capKey : String) : JValue :=
  if isNum (getField job topKey) && hasField (getField job "primary_details") capKey
  then getField (getField job "primary_details") capKey
  else getField job topKey

/-- Spec's words: "if `primary_details.Salary` exists, use it; otherwise
fall back to the top-level `salary` field". -/
def resolveSalarySpec (job : JValue) : JValue :=
  if hasField (getField job "primary_details") "Salary"
  then getField (getField job "primary_details") "Salary"
  else getField job "salary"

/-- Keys of an object value. -/
def objKeys : JValue → List String
  | .obj fields => fields.map Prod.fst
  | _ => []

/-! # Theorems -/

/-- C2: a successful `fetchJobs(page)` extracts the jobs array through
the fallback chain; with `page = 1` it replaces the listing sequence,
with `page > 1` it appends it after the previous sequence (the length
grows by exactly the extracted count); `currentPage` is set to `page`
on success and left unchanged on failure. -/
theorem fetchJobs_listing_semantics (body : JValue) (page : Int) (s : ListingState)
    (prev new : List JValue) :
    ((fetchJobs (.success body) 1 s).jobs = extractJobs body)
  ∧ (page > 1 → s.jobs = .arr prev → extractJobs body = .arr new →
       (fetchJobs (.success body) page s).jobs = .arr (prev ++ new)
     ∧ (prev ++ new).length = prev.length + new.length)
  ∧ ((fetchJobs (.success body) page s).currentPage = page)
  ∧ ((fetchJobs .fail page s).currentPage = s.currentPage) := by
  refine ⟨by simp [fetchJobs], ?_, by simp [fetchJobs], by simp [fetchJobs]⟩
  intro hp hprev hnew
  have h1 : (page == 1) = false := by
    have : page ≠ 1 := by omega
    simpa using this
  exact ⟨by simp [fetchJobs, h1, hprev, hnew, spreadElems], by simp⟩

/-- Witness for C2 at a concrete append: page 2 with body
`{data: [2]}` appended after listing `[1]`. -/
theorem fetchJobs_listing_semantics_witness :
    (fetchJobs (.success (.obj [("data", .arr [.num 2])])) 2
       { jobs := .arr [.num 1], loading := true, error := none, currentPage := 1 }).jobs
      = .arr ([.num 1] ++ [.num 2]) :=
  ((fetchJobs_listing_semantics (.obj [("data", .arr [.num 2])]) 2
      { jobs := .arr [.num 1], loading := true, error := none, currentPage := 1 }
      [.num 1] [.num 2]).2.1 (by decide) rfl (by decide)).1

/-- C6: a failed `fetchJobs` sets the user-facing error message, leaves
the listing sequence unchanged and clears the loading flag; every call
clears the error slot first, so a success ends with the error cleared. -/
theorem fetchJobs_error_contract (body : JValue) (page : Int) (s : ListingState) :
    ((fetchJobs .fail page s).error = some "Failed to fetch jobs. Please try again later."
   ∧ (fetchJobs .fail page s).jobs = s.jobs
   ∧ (fetchJobs .fail page s).loading = false)
  ∧ ((fetchJobs (.success body) page s).error = none
   ∧ (fetchJobs (.success body) page s).loading = false) :=
  ⟨⟨rfl, rfl, rfl⟩, ⟨rfl, rfl⟩⟩

/-- C9: confirmed `clearBookmarks` deletes exactly the primary storage
key (the backup value is untouched) and resets the in-memory set to
empty; without confirmation nothing changes. -/
theorem clearBookmarks_frame (s : BookmarkState) (st : Storage) :
    ((clearBookmarks true s st).2.primary = none
   ∧ (clearBookmarks true s st).2.backup = st.backup
   ∧ (clearBookmarks true s st).1.bookmarks = .arr []
   ∧ (clearBookmarks true s st).1.error = s.error
   ∧ (clearBookmarks true s st).1.loading = s.loading)
  ∧ clearBookmarks false s st = (s, st) :=
  ⟨⟨rfl, rfl, rfl, rfl, rfl⟩, rfl⟩

/-- C8: `verifyAndRepairBookmarks` copies backup → primary and returns
the restored set when the primary key is missing and the backup has
data; returns empty when both are absent; otherwise returns the parsed
primary value. -/
theorem verifyAndRepairBookmarks_contract (st : Storage) (v : JValue) :
    (st.primary = none → st.backup = some (.parseable v) →
        (verifyAndRepairBookmarks st).1.primary = some (.parseable v)
      ∧ (verifyAndRepairBookmarks st).1.backup = st.backup
      ∧ (verifyAndRepairBookmarks st).2 = v)
  ∧ (st.primary = none → st.backup = none →
        (verifyAndRepairBookmarks st).2 = .arr []
      ∧ (verifyAndRepairBookmarks st).1 = st)
  ∧ (st.primary = some (.parseable v) →
        (verifyAndRepairBookmarks st).2 = v
      ∧ (verifyAndRepairBookmarks st).1 = st) := by
  obtain ⟨p, b⟩ := st
  refine ⟨?_, ?_, ?_⟩
  · intro h1 h2
    simp only at h1 h2
    subst h1; subst h2
    exact ⟨rfl, rfl, rfl⟩
  · intro h1 h2
    simp only at h1 h2
    subst h1; subst h2
    exact ⟨rfl, rfl⟩
  · intro h1
    simp only at h1
    subst h1
    cases b <;> exact ⟨rfl, rfl⟩

/-- Witness for C8: a missing primary restored from a backup holding
`[9]`. -/
theorem verifyAndRepairBookmarks_witness :
    (verifyAndRepairBookmarks ⟨none, some (.parseable (.arr [.num 9]))⟩).2 = .arr [.num 9] :=
  ((verifyAndRepairBookmarks_contract ⟨none, some (.parseable (.arr [.num 9]))⟩
      (.arr [.num 9])).1 rfl rfl).2.2

/-- C4: the bundle persisted by `saveBookmarks` carries the projected
records, and every key of every projected record is in the whitelisted
essential field set — for an input record of any shape, extra unknown
fields included. -/
theorem saveBookmarks_whitelist (bookmarks : List JValue) (timestamp : String) (st : Storage) :
    ((saveBookmarks bookmarks timestamp st).primary
        = some (.parseable (saveBundle bookmarks timestamp)))
  ∧ (∀ r ∈ bookmarks.map essentialJob, ∀ k ∈ objKeys r, k ∈ essentialKeys) := by
  refine ⟨rfl, ?_⟩
  intro r hr k hk
  obtain ⟨x, _, rfl⟩ := List.mem_map.mp hr
  have h : objKeys (essentialJob x) = essentialKeys := rfl
  rw [h] at hk
  exact hk

/-- Witness for C4 at a record carrying the unknown field
`evil_field`. -/
theorem saveBookmarks_whitelist_witness :
    "id" ∈ essentialKeys :=
  (saveBookmarks_whitelist [.obj [("id", .num 3), ("evil_field", .str "x")]] "t" ⟨none, none⟩).2
    (essentialJob (.obj [("id", .num 3), ("evil_field", .str "x")]))
    (by decide) "id" (by decide)

/-- The job of the C5 counterexample: a numeric top-level `experience`
together with a `primary_details.Experience` that exists but is the
empty string (falsy). -/
def jobExpBlank : JValue :=
  .obj [("id", .num 7), ("experience", .num 3),
        ("primary_details", .obj [("Experience", .str "")])]

/-- C5 counterexample: on `jobExpBlank` the top-level `experience` is
numeric and `primary_details.Experience` exists, so the claim says the
persisted `experience` is the `primary_details` value `""`; the code
persists the numeric `3` instead, because it tests the truthiness of
`primary_details.Experience`, not its existence. -/
theorem resolution_exists_counterexample :
    isNum (getField jobExpBlank "experience") = true
  ∧ hasField (getField jobExpBlank "primary_details") "Experience" = true
  ∧ getField (getField jobExpBlank "primary_details") "Experience" = .str ""
  ∧ resolveTriadSpec jobExpBlank "experience" "Experience" = .str ""
  ∧ getField (essentialJob jobExpBlank) "experience" = .num 3
  ∧ JValue.num 3 ≠ JValue.str "" :=
  ⟨by decide, by decide, by decide, by decide, by decide, by decide⟩

/-- C5 (amended): the persisted `experience`/`job_type`/`qualification`
each equal the capitalized `primary_details` value when the top-level
value is numeric, `primary_details` is truthy and the `primary_details`
value is itself truthy, and the top-level value as-is otherwise; the
persisted `salary` equals `primary_details.Salary` when `primary_details`
and its `Salary` value are truthy, and the top-level `salary` field
otherwise. -/
theorem essentialJob_resolution (job : JValue) :
    (getField (essentialJob job) "experience"
       = if isNum (getField job "experience")
            && truthy (getField job "primary_details")
            && truthy (getField (getField job "primary_details") "Experience")
         then getField (getField job "primary_details") "Experience"
         else getField job "experience")
  ∧ (getField (essentialJob job) "job_type"
       = if isNum (getField job "job_type")
            && truthy (getField job "primary_details")
            && truthy (getField (getField job "primary_details") "Job_Type")
         then getField (getField job "primary_details") "Job_Type"
         else getField job "job_type")
  ∧ (getField (essentialJob job) "qualification"
       = if isNum (getField job "qualification")
            && truthy (getField job "primary_details")
            && truthy (getField (getField job "primary_details") "Qualification")
         then getField (getField job "primary_details") "Qualification"
         else getField job "qualification")
  ∧ (getField (essentialJob job) "salary"
       = if truthy (getField job "primary_details")
            && truthy (getField (getField job "primary_details") "Salary")
         then getField (getField job "primary_details") "Salary"
         else getField job "salary") := by
  refine ⟨rfl, rfl, rfl, ?_⟩
  have hsal : getField (essentialJob job) "salary"
      = jsOr (if truthy (getField job "primary_details")
                 && truthy (getField (getField job "primary_details") "Salary")
              then getField (getField job "primary_details") "Salary" else JValue.null)
             (getField job "salary") := rfl
  rw [hsal]
  cases hc : (truthy (getField job "primary_details")
      && truthy (getField (getField job "primary_details") "Salary")) with
  | false => simp [hc, jsOr, truthy]
  | true =>
      have h2 := ((Bool.and_eq_true _ _).mp hc).2
      simp [hc, jsOr, h2]

/-- Membership in the bookmark set, propositionally: `isBookmarked`
answers true exactly when some record's `id` equals the queried id. -/
theorem isBookmarked_iff (bm : List JValue) (q : JValue) :
    isBookmarked bm q = true ↔ ∃ b ∈ bm, getField b "id" = q := by
  simp [isBookmarked, List.any_eq_true, jsStrictEq_iff_eq]

/-- The removal branch of `toggleBookmark`. -/
theorem toggleBookmark_of_mem (bm : List JValue) (job : JValue)
    (h : isBookmarked bm (getField job "id") = true) :
    toggleBookmark bm job
      = bm.filter (fun b => !(jsStrictEq (getField b "id") (getField job "id"))) := by
  simp [toggleBookmark, h]

/-- The insertion branch of `toggleBookmark`. -/
theorem toggleBookmark_of_not_mem (bm : List JValue) (job : JValue)
    (h : isBookmarked bm (getField job "id") = false) :
    toggleBookmark bm job = bm ++ [job] := by
  simp [toggleBookmark, h]

/-- C7: `toggleBookmark` is an involution on Bookmark Set membership —
after toggling the same job twice, every queried id is present exactly
when it was present initially. -/
theorem toggleBookmark_membership_involution (bm : List JValue) (job q : JValue) :
    isBookmarked (toggleBookmark (toggleBookmark bm job) job) q = isBookmarked bm q := by
  have key : ∀ a b : Bool, (a = true ↔ b = true) → a = b := by decide
  apply key
  cases hb : isBookmarked bm (getField job "id") with
  | true =>
      have ht1 := toggleBookmark_of_mem bm job hb
      have hnot : isBookmarked (toggleBookmark bm job) (getField job "id") = false := by
        rw [ht1]
        by_contra hcon
        rw [Bool.not_eq_false, isBookmarked_iff] at hcon
        obtain ⟨b, hbmem, hbid⟩ := hcon
        have hpred := (List.mem_filter.mp hbmem).2
        rw [Bool.not_eq_eq_eq_not, Bool.not_true] at hpred
        rw [← jsStrictEq_iff_eq] at hbid
        simp [hpred] at hbid
      have ht2 := toggleBookmark_of_not_mem (toggleBookmark bm job) job hnot
      rw [ht2, ht1, isBookmarked_iff, isBookmarked_iff]
      constructor
      · rintro ⟨b, hbmem, hbid⟩
        rcases List.mem_append.mp hbmem with hin | hin
        · exact ⟨b, (List.mem_filter.mp hin).1, hbid⟩
        · have hbj : b = job := by simpa using hin
          obtain ⟨c, hcmem, hcid⟩ := (isBookmarked_iff bm (getField job "id")).mp hb
          refine ⟨c, hcmem, ?_⟩
          rw [hcid, ← hbj, hbid]
      · rintro ⟨b, hbmem, hbid⟩
        by_cases hq : q = getField job "id"
        · exact ⟨job, List.mem_append.mpr (Or.inr (by simp)), hq.symm⟩
        · refine ⟨b, List.mem_append.mpr (Or.inl ?_), hbid⟩
          refine List.mem_filter.mpr ⟨hbmem, ?_⟩
          have hne : jsStrictEq (getField b "id") (getField job "id") = false := by
            rw [← Bool.not_eq_true, jsStrictEq_iff_eq]
            rw [hbid]
            exact hq
          simp [hne]
  | false =>
      have ht1 := toggleBookmark_of_not_mem bm job hb
      have hyes : isBookmarked (toggleBookmark bm job) (getField job "id") = true := by
        rw [ht1, isBookmarked_iff]
        exact ⟨job, List.mem_append.mpr (Or.inr (by simp)), rfl⟩
      have ht2 := toggleBookmark_of_mem (toggleBookmark bm job) job hyes
      rw [ht2, ht1]
      have hfl : (bm ++ [job]).filter
            (fun b => !(jsStrictEq (getField b "id") (getField job "id"))) = bm := by
        rw [List.filter_append]
        have h1 : bm.filter (fun b => !(jsStrictEq (getField b "id") (getField job "id"))) = bm := by
          apply List.filter_eq_self.mpr
          intro b hbmem
          have hne : jsStrictEq (getField b "id") (getField job "id") = false := by
            rw [← Bool.not_eq_true, jsStrictEq_iff_eq]
            intro he
            have hmem : isBookmarked bm (getField job "id") = true :=
              (isBookmarked_iff bm (getField job "id")).mpr ⟨b, hbmem, he⟩
            rw [hmem] at hb
            exact Bool.true_eq_false.mp hb
          simp [hne]
        have h2 : [job].filter (fun b => !(jsStrictEq (getField b "id") (getField job "id"))) = [] := by
          have hrefl : jsStrictEq (getField job "id") (getField job "id") = true :=
            (jsStrictEq_iff_eq _ _).mpr rfl
          simp [List.filter, hrefl]
        rw [h1, h2, List.append_nil]
      rw [hfl]

/-- C10: bookmark membership is decided by strict, type-sensitive
equality on `id` — `isBookmarked` is true iff some record carries an
`id` of the same type and value, the removal branch of `toggleBookmark`
removes exactly the strictly-equal records, and the numeric id `5` and
the string id `"5"` never match each other. -/
theorem strict_id_membership :
    (∀ (bm : List JValue) (q : JValue),
        isBookmarked bm q = true ↔ ∃ b ∈ bm, getField b "id" = q)
  ∧ (∀ (bm : List JValue) (job : JValue),
        isBookmarked bm (getField job "id") = true →
        toggleBookmark bm job
          = bm.filter (fun b => decide (getField b "id" ≠ getField job "id")))
  ∧ isBookmarked [.obj [("id", .num 5)]] (.str "5") = false
  ∧ isBookmarked [.obj [("id", .str "5")]] (.num 5) = false
  ∧ isBookmarked [.obj [("id", .num 5)]] (.num 5) = true := by
  refine ⟨isBookmarked_iff, ?_, by decide, by decide, by decide⟩
  intro bm job h
  rw [toggleBookmark_of_mem bm job h]
  apply List.filter_congr
  intro b _
  by_cases he : getField b "id" = getField job "id"
  · rw [he]
    simp [(jsStrictEq_iff_eq (getField job "id") (getField job "id")).mpr rfl]
  · have h1 : jsStrictEq (getField b "id") (getField job "id") = false := by
      rw [← Bool.not_eq_true, jsStrictEq_iff_eq]
      exact he
    simp [h1, he]

/-- Witness for C10: removing id `5` filters the one matching record. -/
theorem strict_id_membership_witness :
    toggleBookmark [JValue.obj [("id", .num 5)]] (.obj [("id", .num 5)])
      = List.filter
          (fun b => decide (getField b "id" ≠ getField (JValue.obj [("id", .num 5)]) "id"))
          [JValue.obj [("id", .num 5)]] :=
  strict_id_membership.2.1 [.obj [("id", .num 5)]] (.obj [("id", .num 5)]) (by decide)

/-- The retry attempt performs exactly one storage read and always
completes with the loading flag cleared. -/
theorem loadBookmarksRetry_trace (s : BookmarkState) (st : Storage) (faults : List Bool) :
    (loadBookmarksRetry s st faults).2.2.2 = [.getPrimary]
  ∧ (loadBookmarksRetry s st faults).1.loading = false := by
  obtain ⟨p, bk⟩ := st
  rcases faults with _ | ⟨f, r⟩
  · cases p with
    | none => exact ⟨rfl, rfl⟩
    | some v => cases v <;> exact ⟨rfl, rfl⟩
  · cases f
    · cases p with
      | none => exact ⟨rfl, rfl⟩
      | some v => cases v <;> exact ⟨rfl, rfl⟩
    · exact ⟨rfl, rfl⟩

/-- Every execution of `loadBookmarks` attempts one of three operation
sequences — plain read, read then failed removal, or read, removal and
one retry read — and always completes with the loading flag cleared. -/
theorem loadBookmarks_trace_shape (s : BookmarkState) (st : Storage) (faults : List Bool) :
    ((loadBookmarks s st faults).2.2.2 = [.getPrimary]
   ∨ (loadBookmarks s st faults).2.2.2 = [.getPrimary, .removePrimary]
   ∨ (loadBookmarks s st faults).2.2.2 = [.getPrimary, .removePrimary, .getPrimary])
  ∧ (loadBookmarks s st faults).1.loading = false := by
  obtain ⟨p, bk⟩ := st
  rcases faults with _ | ⟨f1, rest⟩
  · cases p with
    | none => exact ⟨Or.inl rfl, rfl⟩
    | some v =>
      cases v with
      | parseable x => exact ⟨Or.inl rfl, rfl⟩
      | corrupt =>
        refine ⟨Or.inr (Or.inr ?_), rfl⟩
        show (.getPrimary :: .removePrimary :: (loadBookmarksRetry s ⟨none, bk⟩ []).2.2.2
              : List StOp) = _
        rw [(loadBookmarksRetry_trace s ⟨none, bk⟩ []).1]
  · cases f1
    · cases p with
      | none => exact ⟨Or.inl rfl, rfl⟩
      | some v =>
        cases v with
        | parseable x => exact ⟨Or.inl rfl, rfl⟩
        | corrupt =>
          rcases rest with _ | ⟨f2, r2⟩
          · refine ⟨Or.inr (Or.inr ?_), rfl⟩
            show (.getPrimary :: .removePrimary :: (loadBookmarksRetry s ⟨none, bk⟩ []).2.2.2
                  : List StOp) = _
            rw [(loadBookmarksRetry_trace s ⟨none, bk⟩ []).1]
          · cases f2
            · refine ⟨Or.inr (Or.inr ?_), rfl⟩
              show (.getPrimary :: .removePrimary :: (loadBookmarksRetry s ⟨none, bk⟩ r2).2.2.2
                    : List StOp) = _
              rw [(loadBookmarksRetry_trace s ⟨none, bk⟩ r2).1]
            · exact ⟨Or.inr (Or.inl rfl), rfl⟩
    · rcases rest with _ | ⟨f2, r2⟩
      · refine ⟨Or.inr (Or.inr ?_), rfl⟩
        show (.getPrimary :: .removePrimary :: (loadBookmarksRetry s ⟨none, bk⟩ []).2.2.2
              : List StOp) = _
        rw [(loadBookmarksRetry_trace s ⟨none, bk⟩ []).1]
      · cases f2
        · refine ⟨Or.inr (Or.inr ?_), rfl⟩
          show (.getPrimary :: .removePrimary :: (loadBookmarksRetry s ⟨none, bk⟩ r2).2.2.2
                : List StOp) = _
          rw [(loadBookmarksRetry_trace s ⟨none, bk⟩ r2).1]
        · exact ⟨Or.inr (Or.inl rfl), rfl⟩

/-- C3: every `loadBookmarks` run attempts at most one repair (the
removal op appears at most once in any trace) and completes normally
with the loading flag cleared — no exception escapes; a corrupt stored
value with fault-free storage triggers exactly one repair (remove, then
one retry read) leaving the corrupted entry deleted; and when the retry
itself also fails, the error is set and the (initially empty) Bookmark
Set is left empty. -/
theorem loadBookmarks_corruption_recovery (s : BookmarkState) (st : Storage) (faults : List Bool) :
    ((loadBookmarks s st faults).2.2.2.count .removePrimary ≤ 1
   ∧ (loadBookmarks s st faults).1.loading = false)
  ∧ (st.primary = some .corrupt →
        (loadBookmarks s st []).2.2.2 = [.getPrimary, .removePrimary, .getPrimary]
      ∧ (loadBookmarks s st []).2.1.primary = none)
  ∧ (st.primary = some .corrupt → s.bookmarks = .arr [] →
        (loadBookmarks s st [false, false, true]).1.bookmarks = .arr []
      ∧ (loadBookmarks s st [false, false, true]).1.error
          = some "Failed to load saved jobs") := by
  refine ⟨⟨?_, (loadBookmarks_trace_shape s st faults).2⟩, ?_, ?_⟩
  · rcases (loadBookmarks_trace_shape s st faults).1 with h | h | h <;> rw [h] <;> decide
  · intro hp
    obtain ⟨p, bk⟩ := st
    simp only at hp
    subst hp
    constructor
    · show (.getPrimary :: .removePrimary :: (loadBookmarksRetry s ⟨none, bk⟩ []).2.2.2
            : List StOp) = _
      rw [(loadBookmarksRetry_trace s ⟨none, bk⟩ []).1]
    · rfl
  · intro hp hbm
    obtain ⟨p, bk⟩ := st
    simp only at hp
    subst hp
    exact ⟨hbm, rfl⟩

/-- The provider's initial bookmark state: empty set, no error, loading
while the initial load runs. -/
def initialBookmarkState : BookmarkState :=
  { bookmarks := .arr [], error := none, loading := true }

/-- A sample job record. -/
def sampleJob : JValue := .obj [("id", .num 1), ("title", .str "Cook")]

/-- Witness for C3: a corrupt stored value and fault-free storage give
exactly the read–remove–read trace. -/
theorem loadBookmarks_corruption_recovery_witness :
    (loadBookmarks initialBookmarkState ⟨some .corrupt, none⟩ []).2.2.2
      = [.getPrimary, .removePrimary, .getPrimary] :=
  ((loadBookmarks_corruption_recovery initialBookmarkState ⟨some .corrupt, none⟩ []).2.1 rfl).1

/-- C1 (code bug): after `saveBookmarks` persists the bundle
`{timestamp, jobs}`, a restart's `loadBookmarks` sets the in-memory
Bookmark Set to the WHOLE parsed bundle object — not to its `jobs`
list, which is what the rest of the code (`bookmarks.some`,
`bookmarks.filter`) requires. -/
theorem loadBookmarks_bundle_bug :
    (loadBookmarks initialBookmarkState
        (saveBookmarks [sampleJob] "2026-01-01T00:00:00.000Z" ⟨none, none⟩) []).1.bookmarks
      = saveBundle [sampleJob] "2026-01-01T00:00:00.000Z"
  ∧ getField (saveBundle [sampleJob] "2026-01-01T00:00:00.000Z") "jobs"
      = .arr [essentialJob sampleJob]
  ∧ saveBundle [sampleJob] "2026-01-01T00:00:00.000Z" ≠ .arr [essentialJob sampleJob] :=
  ⟨rfl, rfl, by decide⟩
